import Mathlib

/-!
Verification development for the FinanceTracker repository.

Shallow embedding of the document ingestion and AI-assisted extraction
pipeline: `src/services/openai.ts` (extraction client, conversational
context builder, insight synthesizer) and
`src/components/BillsReceiptsManager.tsx` (document lifecycle tracker,
degraded-mode fallback, merge into ledger), together with the
ledger-append handler `handleAddTransactions` of `App.tsx`.

Modelling conventions:
- JavaScript monetary amounts are cent-valued float literals everywhere in
  the source (25.99, 3.50, ...); amounts are modelled as integer cents.
- The external HTTP layer and the remote model are non-deterministic; each
  embedded service function takes the network outcome as an explicit
  argument (an inductive describing transport failure, HTTP error status,
  missing content, undecodable content, or a decoded payload).
- The spec's error taxonomy (ServiceUnavailable / TransportError /
  MalformedResponse) classifies the `throw` sites of the source: the
  missing-credential throw, the fetch/`response.ok` throws, and the
  missing-content / JSON-decode throws respectively.
- The source's document status literal is `'error'`; the UI renders it as
  "Rejected" and the spec names it `rejected`.
-/

namespace FinanceTracker

/-- The `type` discriminator of a transaction (`'income' | 'expense'`). -/
inductive TxType where
  | income
  | expense
deriving DecidableEq, Repr

/-- Transaction record, from `src/types/index.ts`. Field `amount` is in
integer cents (the source stores a JS float number of dollars). -/
structure Transaction where
  id : String
  date : String
  amount : Nat
  category : String
  description : String
  type : TxType
deriving DecidableEq, Repr

/-- Raw transaction inside an extraction payload (`TransactionExtraction`
in `src/services/openai.ts`): same fields but no `id`. -/
structure RawTransaction where
  date : String
  amount : Nat
  category : String
  description : String
  type : TxType
deriving DecidableEq, Repr

inductive DocumentType where
  | receipt
  | bill
  | invoice
  | statement
  | other
deriving DecidableEq, Repr

/-- `TransactionExtraction` interface of `src/services/openai.ts`. -/
structure TransactionExtraction where
  transactions : List RawTransaction
  analysis : String
  confidence : Rat
  isValidDocument : Bool
  documentType : DocumentType
  rejectionReason : Option String
deriving DecidableEq, Repr

/-- Error taxonomy of the spec, classifying the throw sites of
`extractTransactionsFromImage`. -/
inductive ExtractionError where
  | serviceUnavailable
  | transportError
  | malformedResponse
deriving DecidableEq, Repr

/-- Outcome of the HTTP exchange performed by
`extractTransactionsFromImage`, as seen by the client code: the fetch can
reject, return a non-ok status, return a body with no
`choices[0].message.content`, return content that `JSON.parse` cannot
decode into a `TransactionExtraction`, or return a decoded payload. -/
inductive ExtractApiResponse where
  | networkFailure
  | httpError (status : Nat)
  | okNoContent
  | okUnparseable
  | okParsed (r : TransactionExtraction)
deriving DecidableEq, Repr

/-- `extractTransactionsFromImage` of `src/services/openai.ts`,
lines 27-109. Returns the result of the call together with a flag
recording whether a network request was issued. The missing-credential
check (`if (!OPENAI_API_KEY) throw ...`) precedes the fetch, so no network
request happens in that case; every other failure is classified by the
spec taxonomy. -/
def extractTransactionsFromImage (apiKey : Option String)
    (resp : ExtractApiResponse) :
    Except ExtractionError TransactionExtraction × Bool :=
  match apiKey with
  | none => (.error .serviceUnavailable, false)
  | some _ =>
    (match resp with
     | .networkFailure => .error .transportError
     | .httpError _ => .error .transportError
     | .okNoContent => .error .malformedResponse
     | .okUnparseable => .error .malformedResponse
     | .okParsed r => .ok r, true)

/-- Two-digit zero padding, for `toFixed(2)` fraction digits. -/
def pad2 (n : Nat) : String :=
  if n < 10 then "0" ++ toString n else toString n

/-- JS `x.toFixed(2)` for a non-negative cent-valued number given in
cents. -/
def toFixed2 (cents : Nat) : String :=
  toString (cents / 100) ++ "." ++ pad2 (cents % 100)

/-- JS default number-to-string conversion (template literals,
`JSON.stringify`) for a non-negative cent-valued number given in cents:
trailing zeros of the fraction are dropped. -/
def jsNumRepr (cents : Nat) : String :=
  if cents % 100 = 0 then toString (cents / 100)
  else if cents % 10 = 0 then
    toString (cents / 100) ++ "." ++ toString (cents % 100 / 10)
  else
    toString (cents / 100) ++ "." ++ pad2 (cents % 100)

/-- The string a transaction `type` field holds in the source. -/
def txTypeStr : TxType → String
  | .income => "income"
  | .expense => "expense"

/-- JS `Array.prototype.slice(-n)`: the suffix of the last `n` elements
(the whole list when it has at most `n` elements). -/
def jsSliceLast (n : Nat) (l : List α) : List α :=
  l.drop (l.length - n)

/-- One line of the chat transaction summary, from
`src/services/openai.ts` line 140:
a template of date, signed amount, description and category. -/
def renderTxLine (t : Transaction) : String :=
  t.date ++ ": " ++ (match t.type with | .income => "+" | .expense => "-")
    ++ "$" ++ jsNumRepr t.amount ++ " - " ++ t.description
    ++ " (" ++ t.category ++ ")"

/-- The serialized transaction summary of `chatAboutReceipt`
(`transactions.slice(-50).map(...).join('\n')`). -/
def transactionSummary (txs : List Transaction) : String :=
  String.intercalate "\n" ((jsSliceLast 50 txs).map renderTxLine)

inductive ChatRole where
  | system
  | user
deriving DecidableEq, Repr

/-- Content of one request message: plain text, or text with an attached
image (the two shapes built by `chatAboutReceipt`). -/
inductive ChatContent where
  | text (s : String)
  | textWithImage (s : String) (url : String)
deriving DecidableEq, Repr

structure ChatMsg where
  role : ChatRole
  content : ChatContent
deriving DecidableEq, Repr

/-- Fixed system instruction of `chatAboutReceipt`
(`src/services/openai.ts` lines 125-133). -/
def chatSystemPrompt : String :=
  "You are a helpful financial assistant specializing in explaining bills, receipts, and transactions to students. \n        You can help with:\n        - Explaining charges and fees\n        - Verifying if prices are reasonable\n        - Breaking down complex bills\n        - Suggesting better spending categories\n        - Identifying potential errors or fraud\n        \n        Be friendly, educational, and focus on helping students understand their finances better."

/-- The transaction-history system context of `chatAboutReceipt`
(lines 143-146). -/
def txHistoryContext (txs : List Transaction) : String :=
  "Here is the user\x27s recent transaction history for context:\n"
    ++ transactionSummary txs
    ++ "\n\nUse this information to provide personalized insights and answer questions about their spending patterns, budgets, and financial habits."

/-- Message-list construction of `chatAboutReceipt`
(`src/services/openai.ts` lines 122-164): fixed system prompt, then the
transaction-history context when a non-empty ledger window is supplied,
then the active document's analysis context when supplied, then the user
turn (with the document image attached when supplied). -/
def buildChatMessages (message : String) (imageData : Option String)
    (context : Option String) (txs : List Transaction) : List ChatMsg :=
  [⟨.system, .text chatSystemPrompt⟩]
    ++ (if txs.isEmpty then []
        else [⟨.system, .text (txHistoryContext txs)⟩])
    ++ (match context with
        | some c =>
          [⟨.system, .text ("Context about the current receipt/bill: " ++ c)⟩]
        | none => [])
    ++ [⟨.user, match imageData with
                | some img => .textWithImage message img
                | none => .text message⟩]

/-- `JSON.stringify` of one transaction object, field order as declared in
`src/types/index.ts`. String fields of this repository contain no
characters needing JSON escapes. -/
def jsonOfTx (t : Transaction) : String :=
  "\x7b\"id\":\"" ++ t.id
    ++ "\",\"date\":\"" ++ t.date
    ++ "\",\"amount\":" ++ jsNumRepr t.amount
    ++ ",\"category\":\"" ++ t.category
    ++ "\",\"description\":\"" ++ t.description
    ++ "\",\"type\":\"" ++ txTypeStr t.type
    ++ "\"\x7d"

/-- `JSON.stringify` of a transaction array. -/
def jsonStringifyTxs (l : List Transaction) : String :=
  "[" ++ String.intercalate "," (l.map jsonOfTx) ++ "]"

/-- Fixed system instruction of `generateFinancialInsights`
(`src/services/openai.ts` lines 221-223). -/
def insightSystemPrompt : String :=
  "You are a financial advisor for students. Analyze the transaction data and provide 3-5 actionable insights.\n            Focus on spending patterns, budgeting tips, and financial health for students.\n            Return insights as a JSON array of strings."

/-- The user-turn content of `generateFinancialInsights` (line 227):
instruction text plus the JSON-serialized window of the most recent 20
transactions. -/
def insightUserContent (txs : List Transaction) : String :=
  "Analyze these transactions and provide insights: "
    ++ jsonStringifyTxs (jsSliceLast 20 txs)

/-- Message list of the insight request (lines 218-229). -/
def buildInsightMessages (txs : List Transaction) : List ChatMsg :=
  [⟨.system, .text insightSystemPrompt⟩,
   ⟨.user, .text (insightUserContent txs)⟩]

/-- A decoded JSON value as the insight response handler observes it: the
handler only distinguishes strings from everything else element-wise, and
arrays from non-arrays at the top level. -/
inductive JsonValue where
  | jstr (s : String)
  | jnum (n : Int)
  | jbool (b : Bool)
  | jnull
  | jother
deriving DecidableEq, Repr

/-- Top-level shape of the decoded insight response content:
`Array.isArray` only inspects whether the value is an array. -/
inductive JsonParse where
  | array (elems : List JsonValue)
  | nonArray
deriving DecidableEq, Repr

/-- Outcome of the HTTP exchange performed by
`generateFinancialInsights`: non-ok status, missing content, content
`JSON.parse` throws on (`none`), or decoded content. -/
inductive InsightResponse where
  | httpError (status : Nat)
  | okNoContent
  | okContent (parsed : Option JsonParse)
deriving DecidableEq, Repr

/-- `generateFinancialInsights` of `src/services/openai.ts`,
lines 204-253. Returns the insight list together with a flag recording
whether a network request was issued. The guard
`if (!OPENAI_API_KEY || transactions.length === 0) return []` precedes
the fetch; a thrown HTTP or parse error is caught and becomes `[]`; a
decoded array is returned as-is (`Array.isArray(insights) ? insights : []`
checks no element types). -/
def generateFinancialInsights (apiKey : Option String)
    (txs : List Transaction) (resp : InsightResponse) :
    List JsonValue × Bool :=
  match apiKey with
  | none => ([], false)
  | some _ =>
    if txs.isEmpty then ([], false)
    else
      (match resp with
       | .httpError _ => []
       | .okNoContent => []
       | .okContent none => []
       | .okContent (some .nonArray) => []
       | .okContent (some (.array l)) => l, true)

/-! ## Document lifecycle tracker (`src/components/BillsReceiptsManager.tsx`) -/

/-- File kind (`'image' | 'pdf'`). -/
inductive FileType where
  | image
  | pdf
deriving DecidableEq, Repr

/-- Document status. The source literal for the third state is
`'error'`; the UI renders it as "Rejected" and the spec calls it
`rejected`. -/
inductive FileStatus where
  | processing
  | completed
  | error
deriving DecidableEq, Repr

/-- `UploadedFile` record of `BillsReceiptsManager.tsx` lines 25-34.
`preview` is the data-URL string, `fileName` stands for the `File`
object's name. -/
structure UploadedFile where
  id : String
  fileName : String
  preview : String
  ftype : FileType
  uploadedAt : String
  status : FileStatus
  extractedTransactions : List Transaction
  aiAnalysis : Option String
deriving DecidableEq, Repr

/-- The data `onDrop` derives from a dropped file before building the
`UploadedFile` record (lines 65-73). -/
structure UploadData where
  id : String
  fileName : String
  preview : String
  ftype : FileType
  uploadedAt : String
deriving DecidableEq, Repr

/-- The `UploadedFile` record `onDrop` constructs: status `processing`,
no extracted transactions, no analysis. -/
def newFile (d : UploadData) : UploadedFile :=
  { id := d.id, fileName := d.fileName, preview := d.preview,
    ftype := d.ftype, uploadedAt := d.uploadedAt,
    status := .processing, extractedTransactions := [], aiAnalysis := none }

/-- The rejection text of `processFile` line 105:
`result.rejectionReason || 'This does not appear ...'` — JS `||` falls to
the default on a missing or empty reason. -/
def rejectionText (r : TransactionExtraction) : String :=
  match r.rejectionReason with
  | some s =>
    if s = "" then
      "This does not appear to be a valid receipt, bill, or financial document."
    else s
  | none =>
    "This does not appear to be a valid receipt, bill, or financial document."

/-- The typed transactions `processFile` builds from a valid extraction
result (lines 112-119): ids are `Date.now().toString() + index`. -/
def mkExtracted (now : Nat) (raw : List RawTransaction) : List Transaction :=
  raw.enum.map fun p =>
    { id := toString now ++ toString p.1,
      date := p.2.date, amount := p.2.amount, category := p.2.category,
      description := p.2.description, type := p.2.type }

/-- The mock transactions of the catch branch of `processFile`
(lines 135-152): amounts 25.99 and 3.50 dollars, ids `Date.now()` and
`Date.now()+1`, dated today. -/
def mockTransactions (now : Nat) (today : String) : List Transaction :=
  [{ id := toString now, date := today, amount := 2599,
     category := "food", description := "Grocery items from receipt",
     type := .expense },
   { id := toString (now + 1), date := today, amount := 350,
     category := "food", description := "Beverage from receipt",
     type := .expense }]

/-- The mock analysis string of the catch branch (line 154): built from
the mock transaction count and total. -/
def mockAnalysis (now : Nat) (today : String) (t : FileType) : String :=
  "I\x27ve analyzed your "
    ++ (match t with | .image => "receipt" | .pdf => "bill")
    ++ " and found " ++ toString (mockTransactions now today).length
    ++ " transactions. The total amount is $"
    ++ toFixed2 (((mockTransactions now today).map (·.amount)).sum)
    ++ ". This appears to be a valid financial document with multiple line items extracted as separate transactions."

/-- The degraded-mode fallback update of the catch branch of
`processFile` (lines 156-165): status `completed`, mock transactions,
mock analysis. -/
def applyFallback (now : Nat) (today : String) (f : UploadedFile) :
    UploadedFile :=
  { f with status := .completed,
           extractedTransactions := mockTransactions now today,
           aiAnalysis := some (mockAnalysis now today f.ftype) }

/-- How `processFile` rewrites the matching document record once the
extraction call settles (lines 94-168): a clean invalid result sets
status `error` and the rejection analysis and leaves
`extractedTransactions` untouched; a clean valid result sets status
`completed` with the typed transactions and the result analysis; any
thrown error takes the fallback branch. -/
def docAfterExtraction (now : Nat) (today : String) (f : UploadedFile)
    (res : Except ExtractionError TransactionExtraction) : UploadedFile :=
  match res with
  | .ok r =>
    if r.isValidDocument then
      { f with status := .completed,
               extractedTransactions := mkExtracted now r.transactions,
               aiAnalysis := some r.analysis }
    else
      { f with status := .error,
               aiAnalysis := some ("Document rejected: " ++ rejectionText r) }
  | .error _ => applyFallback now today f

/-- The per-id list update every `setUploadedFiles` call of `processFile`
performs: only the entry whose id matches is rewritten. -/
def applyExtraction (files : List UploadedFile) (fileId : String)
    (now : Nat) (today : String)
    (res : Except ExtractionError TransactionExtraction) :
    List UploadedFile :=
  files.map fun f =>
    if f.id == fileId then docAfterExtraction now today f res else f

/-- Component state relevant to the claims: the uploaded-file list and
the active chat selection of `BillsReceiptsManager`, and the ledger
(`transactions` state of `App.tsx`, appended to by
`handleAddTransactions`). -/
structure ManagerState where
  uploadedFiles : List UploadedFile
  selectedFile : Option String
  ledger : List Transaction
deriving DecidableEq, Repr

/-- The operations that touch this state: `onDrop` appending a fresh
`processing` document, the settling of a document's extraction call, the
merge button (`addTransactionsToTracker(file.extractedTransactions)`
feeding `handleAddTransactions`), and `deleteFile`. -/
inductive Op where
  | upload (d : UploadData)
  | extractOutcome (fileId : String) (now : Nat) (today : String)
      (res : Except ExtractionError TransactionExtraction)
  | mergeFile (fileId : String)
  | deleteFile (fileId : String)

/-- One step of the component, mirroring the corresponding handler. -/
def step (st : ManagerState) : Op → ManagerState
  | .upload d =>
    { st with uploadedFiles := st.uploadedFiles ++ [newFile d] }
  | .extractOutcome fileId now today res =>
    { st with uploadedFiles :=
        applyExtraction st.uploadedFiles fileId now today res }
  | .mergeFile fileId =>
    { st with ledger := st.ledger ++
        (match st.uploadedFiles.find? (fun f => f.id == fileId) with
         | some f => f.extractedTransactions
         | none => []) }
  | .deleteFile fileId =>
    { st with
        uploadedFiles := st.uploadedFiles.filter (fun f => !(f.id == fileId)),
        selectedFile :=
          if st.selectedFile = some fileId then none else st.selectedFile }

/-- Run a sequence of operations. -/
def run (st : ManagerState) (ops : List Op) : ManagerState :=
  ops.foldl step st

/-- Status of the document with the given id, when present. -/
def statusOf (st : ManagerState) (id : String) : Option FileStatus :=
  (st.uploadedFiles.find? (fun f => f.id == id)).map (·.status)

/-- Extracted transactions of the document with the given id. -/
def txsOf (st : ManagerState) (id : String) : Option (List Transaction) :=
  (st.uploadedFiles.find? (fun f => f.id == id)).map
    (·.extractedTransactions)

/-- Analysis field of the document with the given id. -/
def analysisOf (st : ManagerState) (id : String) :
    Option (Option String) :=
  (st.uploadedFiles.find? (fun f => f.id == id)).map (·.aiAnalysis)

/-- The document id an operation's extraction settlement targets. -/
def extractTarget : Op → Option String
  | .extractOutcome fileId _ _ _ => some fileId
  | _ => none

/-! ## Supporting lemmas -/

/-- Every branch of `docAfterExtraction` is a record update leaving the
document id alone. -/
theorem docAfterExtraction_id (now : Nat) (today : String)
    (f : UploadedFile) (res : Except ExtractionError TransactionExtraction) :
    (docAfterExtraction now today f res).id = f.id := by
  cases res with
  | ok r =>
    by_cases h : r.isValidDocument <;>
      simp [docAfterExtraction, h]
  | error e => rfl

/-- Looking a key up in a list mapped through an id-preserving function
finds the image of the original entry. -/
theorem find?_map_id_preserving (g : UploadedFile → UploadedFile)
    (hg : ∀ f, (g f).id = f.id) (id : String) (l : List UploadedFile) :
    (l.map g).find? (fun f => f.id == id) =
      ((l.find? (fun f => f.id == id)).map g) := by
  induction l with
  | nil => rfl
  | cons f l ih =>
    have hgf : ((g f).id == id) = (f.id == id) := by rw [hg f]
    cases h : (f.id == id) with
    | true => simp [List.find?_cons, hgf, h]
    | false => simp only [List.map_cons, List.find?_cons, hgf, h, ih]

/-- `applyExtraction` leaves lookups of every other id unchanged. -/
theorem find?_applyExtraction_ne (files : List UploadedFile)
    (fileId : String) (now : Nat) (today : String)
    (res : Except ExtractionError TransactionExtraction) (id : String)
    (h : id ≠ fileId) :
    (applyExtraction files fileId now today res).find?
        (fun f => f.id == id) =
      files.find? (fun f => f.id == id) := by
  unfold applyExtraction
  rw [find?_map_id_preserving _
    (fun f => by
      by_cases hf : (f.id == fileId) = true <;> simp [hf, docAfterExtraction_id])]
  cases hfind : files.find? (fun f => f.id == id) with
  | none => rfl
  | some f =>
    have hid : f.id = id := by simpa using List.find?_some hfind
    have hne : (f.id == fileId) = false := by
      rw [hid, beq_eq_false_iff_ne]; exact h
    simp only [Option.map]
    rw [if_neg (by simp [hne])]

/-- `applyExtraction` rewrites the lookup of the targeted id through
`docAfterExtraction`. -/
theorem find?_applyExtraction_self (files : List UploadedFile)
    (fileId : String) (now : Nat) (today : String)
    (res : Except ExtractionError TransactionExtraction) :
    (applyExtraction files fileId now today res).find?
        (fun f => f.id == fileId) =
      (files.find? (fun f => f.id == fileId)).map
        (fun f => docAfterExtraction now today f res) := by
  unfold applyExtraction
  rw [find?_map_id_preserving _
    (fun f => by
      by_cases hf : (f.id == fileId) = true <;> simp [hf, docAfterExtraction_id])]
  cases hfind : files.find? (fun f => f.id == fileId) with
  | none => rfl
  | some f =>
    have hid : f.id = fileId := by simpa using List.find?_some hfind
    simp [hid]

/-- When no entry matches the id, the per-id rewrite is the identity. -/
theorem applyExtraction_absent (files : List UploadedFile)
    (fileId : String) (now : Nat) (today : String)
    (res : Except ExtractionError TransactionExtraction)
    (h : ∀ f ∈ files, (f.id == fileId) = false) :
    applyExtraction files fileId now today res = files := by
  unfold applyExtraction
  induction files with
  | nil => rfl
  | cons f l ih =>
    rw [List.map_cons, h f (by simp),
      ih (fun f hf => h f (by simp [hf]))]
    simp

/-- Deleting one id leaves lookups of every other id unchanged. -/
theorem find?_filter_ne (l : List UploadedFile) (id fid : String)
    (h : id ≠ fid) :
    (l.filter (fun f => !(f.id == fid))).find? (fun f => f.id == id) =
      l.find? (fun f => f.id == id) := by
  induction l with
  | nil => rfl
  | cons f l ih =>
    by_cases hf : (f.id == fid) = true
    · have hffid : f.id = fid := by simpa using hf
      have hne : (f.id == id) = false := by
        rw [hffid, beq_eq_false_iff_ne]; exact fun hc => h hc.symm
      rw [List.filter_cons_of_neg (by simp [hf])]
      simp only [List.find?_cons, hne, ih]
    · rw [List.filter_cons_of_pos (by simpa using hf)]
      cases hid : (f.id == id) with
      | true => simp only [List.find?_cons, hid]
      | false => simp only [List.find?_cons, hid, ih]

/-- A freshly uploaded document is found by its id when the id was not
already in use. -/
theorem statusOf_upload_fresh (st : ManagerState) (d : UploadData)
    (h : statusOf st d.id = none) :
    (step st (.upload d)).uploadedFiles.find? (fun f => f.id == d.id) =
      some (newFile d) := by
  have hnone : st.uploadedFiles.find? (fun f => f.id == d.id) = none := by
    unfold statusOf at h
    cases hf : st.uploadedFiles.find? (fun f => f.id == d.id) with
    | none => rfl
    | some f => rw [hf] at h; simp at h
  show (st.uploadedFiles ++ [newFile d]).find? (fun f => f.id == d.id) = _
  rw [List.find?_append, hnone]
  simp [newFile]

/-! ## Sample inputs used by witnesses and counterexamples -/

/-- An empty component state. -/
def emptyState : ManagerState := ⟨[], none, []⟩

/-- A sample dropped file. -/
def sampleUpload : UploadData :=
  ⟨"file1", "receipt.png", "data:image/png;base64,AAAA", .image,
   "2024-01-01T00:00:00.000Z"⟩

/-- A sample extraction payload classifying the image as not a financial
document, while still carrying a raw transaction. -/
def sampleInvalidResult : TransactionExtraction :=
  { transactions := [⟨"2024-01-01", 1250, "food", "Lunch", .expense⟩],
    analysis := "stray analysis",
    confidence := 1/2,
    isValidDocument := false,
    documentType := .other,
    rejectionReason := some "not a financial document" }

/-- A sample ledger transaction. -/
def sampleTx : Transaction :=
  ⟨"t1", "2024-01-05", 1250, "food", "Lunch", .expense⟩

/-! ## Claim theorems -/

/-- C1: for every uploaded document, if the extraction result has
`isValidDocument = false`, then after processing settles the document's
status is rejected (source literal `'error'`, rendered "Rejected") and its
`extractedTransactions` list is empty, regardless of any transactions
present in the raw extraction result: the rejection branch of
`processFile` never writes `extractedTransactions`, and `onDrop`
initializes it to `[]`. -/
theorem c1_invalid_document_rejected_empty (st : ManagerState)
    (d : UploadData) (now : Nat) (today : String)
    (r : TransactionExtraction)
    (hfresh : statusOf st d.id = none)
    (hinvalid : r.isValidDocument = false) :
    statusOf (run st [.upload d, .extractOutcome d.id now today (.ok r)])
        d.id = some .error
    ∧ txsOf (run st [.upload d, .extractOutcome d.id now today (.ok r)])
        d.id = some [] := by
  have h1 := statusOf_upload_fresh st d hfresh
  have hrun : run st [.upload d, .extractOutcome d.id now today (.ok r)]
      = step (step st (.upload d))
          (.extractOutcome d.id now today (.ok r)) := rfl
  rw [hrun]
  have hfind :
      (step (step st (.upload d))
          (.extractOutcome d.id now today (.ok r))).uploadedFiles.find?
        (fun f => f.id == d.id)
      = some (docAfterExtraction now today (newFile d) (.ok r)) := by
    show (applyExtraction (step st (.upload d)).uploadedFiles d.id now today
        (.ok r)).find? (fun f => f.id == d.id) = _
    rw [find?_applyExtraction_self, h1]
    rfl
  constructor
  · unfold statusOf
    rw [hfind]
    simp [docAfterExtraction, hinvalid]
  · unfold txsOf
    rw [hfind]
    simp [docAfterExtraction, hinvalid, newFile]

/-- C1 witness: a concrete rejected upload. -/
theorem c1_witness :
    statusOf (run emptyState
        [.upload sampleUpload,
         .extractOutcome sampleUpload.id 7 "2024-01-02"
           (.ok sampleInvalidResult)]) sampleUpload.id = some .error
    ∧ txsOf (run emptyState
        [.upload sampleUpload,
         .extractOutcome sampleUpload.id 7 "2024-01-02"
           (.ok sampleInvalidResult)]) sampleUpload.id = some [] :=
  c1_invalid_document_rejected_empty emptyState sampleUpload 7 "2024-01-02"
    sampleInvalidResult rfl rfl

/-- C2: if the extraction call fails with a transport error or a
malformed response, the document still reaches status `completed` with
the non-empty mock transaction list and a non-empty fallback analysis. -/
theorem c2_failure_fallback_completes (st : ManagerState)
    (d : UploadData) (now : Nat) (today : String) (e : ExtractionError)
    (hfresh : statusOf st d.id = none)
    (he : e = .transportError ∨ e = .malformedResponse) :
    statusOf (run st [.upload d, .extractOutcome d.id now today (.error e)])
        d.id = some .completed
    ∧ txsOf (run st [.upload d, .extractOutcome d.id now today (.error e)])
        d.id = some (mockTransactions now today)
    ∧ mockTransactions now today ≠ []
    ∧ analysisOf (run st
        [.upload d, .extractOutcome d.id now today (.error e)]) d.id
      = some (some (mockAnalysis now today d.ftype))
    ∧ mockAnalysis now today d.ftype ≠ "" := by
  have h1 := statusOf_upload_fresh st d hfresh
  have hrun : run st [.upload d, .extractOutcome d.id now today (.error e)]
      = step (step st (.upload d))
          (.extractOutcome d.id now today (.error e)) := rfl
  have hfind :
      (step (step st (.upload d))
          (.extractOutcome d.id now today (.error e))).uploadedFiles.find?
        (fun f => f.id == d.id)
      = some (docAfterExtraction now today (newFile d) (.error e)) := by
    show (applyExtraction (step st (.upload d)).uploadedFiles d.id now today
        (.error e)).find? (fun f => f.id == d.id) = _
    rw [find?_applyExtraction_self, h1]
    rfl
  refine ⟨?_, ?_, ?_, ?_, ?_⟩
  · rw [hrun]; unfold statusOf; rw [hfind]
    simp [docAfterExtraction, applyFallback]
  · rw [hrun]; unfold txsOf; rw [hfind]
    simp [docAfterExtraction, applyFallback]
  · simp [mockTransactions]
  · rw [hrun]; unfold analysisOf; rw [hfind]
    simp [docAfterExtraction, applyFallback, newFile]
  · intro hc
    have hlen := congrArg String.length hc
    unfold mockAnalysis at hlen
    simp only [String.length_append] at hlen
    have h19 : ("I\x27ve analyzed your ").length = 19 := by decide
    have h0 : ("" : String).length = 0 := by decide
    rw [h19, h0] at hlen
    omega

/-- C2 witness: a concrete transport failure absorbed by the fallback. -/
theorem c2_witness :
    statusOf (run emptyState
        [.upload sampleUpload,
         .extractOutcome sampleUpload.id 7 "2024-01-02"
           (.error .transportError)]) sampleUpload.id = some .completed
    ∧ txsOf (run emptyState
        [.upload sampleUpload,
         .extractOutcome sampleUpload.id 7 "2024-01-02"
           (.error .transportError)]) sampleUpload.id
      = some (mockTransactions 7 "2024-01-02")
    ∧ mockTransactions 7 "2024-01-02" ≠ []
    ∧ analysisOf (run emptyState
        [.upload sampleUpload,
         .extractOutcome sampleUpload.id 7 "2024-01-02"
           (.error .transportError)]) sampleUpload.id
      = some (some (mockAnalysis 7 "2024-01-02" sampleUpload.ftype))
    ∧ mockAnalysis 7 "2024-01-02" sampleUpload.ftype ≠ "" :=
  c2_failure_fallback_completes emptyState sampleUpload 7 "2024-01-02"
    .transportError rfl (Or.inl rfl)

/-- C3 counterexample: with no credential configured, the per-document
extraction call fails with `ServiceUnavailable` (before any network
request) and that failure IS absorbed by the degraded-mode fallback — the
document completes with mock data. The claim's assertion that the
fallback is invoked only on `TransportError`/`MalformedResponse` and that
a missing credential disables the feature instead of failing per call is
false on the code. -/
theorem c3_counterexample :
    extractTransactionsFromImage none .networkFailure
      = (.error .serviceUnavailable, false)
    ∧ docAfterExtraction 7 "2024-01-02" (newFile sampleUpload)
        ((extractTransactionsFromImage none .networkFailure).1)
      = applyFallback 7 "2024-01-02" (newFile sampleUpload)
    ∧ (applyFallback 7 "2024-01-02" (newFile sampleUpload)).status
      = .completed
    ∧ (applyFallback 7 "2024-01-02"
        (newFile sampleUpload)).extractedTransactions ≠ [] := by
  refine ⟨rfl, rfl, rfl, ?_⟩
  simp [applyFallback, mockTransactions]

/-- C3 amended: the fallback is invoked on every extraction failure —
`ServiceUnavailable` included — and never on a clean
`isValidDocument = false`; the missing-credential check does happen
inside the client before any network request, but it surfaces as a
per-document error that the fallback absorbs, not as an up-front feature
disable. -/
theorem c3_fallback_on_every_error :
    (∀ resp, extractTransactionsFromImage none resp
        = (.error .serviceUnavailable, false))
    ∧ (∀ k resp, (extractTransactionsFromImage (some k) resp).2 = true)
    ∧ (∀ now today f e,
        docAfterExtraction now today f (.error e)
          = applyFallback now today f)
    ∧ (∀ now today f r, r.isValidDocument = false →
        (docAfterExtraction now today f (.ok r)).status = .error
        ∧ docAfterExtraction now today f (.ok r)
            ≠ applyFallback now today f) := by
  refine ⟨fun resp => rfl, fun k resp => rfl,
    fun now today f e => rfl, fun now today f r h => ⟨?_, ?_⟩⟩
  · simp [docAfterExtraction, h]
  · intro hc
    have hs := congrArg UploadedFile.status hc
    simp [docAfterExtraction, h, applyFallback] at hs

/-- C3 amended witness: the clean-rejection conjunct at a concrete
input. -/
theorem c3_amended_witness :
    (docAfterExtraction 7 "2024-01-02" (newFile sampleUpload)
        (.ok sampleInvalidResult)).status = .error
    ∧ docAfterExtraction 7 "2024-01-02" (newFile sampleUpload)
        (.ok sampleInvalidResult)
      ≠ applyFallback 7 "2024-01-02" (newFile sampleUpload) :=
  c3_fallback_on_every_error.2.2.2 7 "2024-01-02" (newFile sampleUpload)
    sampleInvalidResult rfl

/-- C4 counterexample: the rejected document's analysis field is the
rejection reason with the prefix `"Document rejected: "`, not the reason
verbatim. -/
theorem c4_counterexample :
    (docAfterExtraction 7 "2024-01-02" (newFile sampleUpload)
        (.ok sampleInvalidResult)).aiAnalysis
      = some "Document rejected: not a financial document"
    ∧ (docAfterExtraction 7 "2024-01-02" (newFile sampleUpload)
        (.ok sampleInvalidResult)).aiAnalysis
      ≠ some "not a financial document" := by
  constructor
  · rfl
  · decide

/-- C4 amended: for every rejected document, the analysis field equals
`"Document rejected: "` followed by the service's rejection reason (or
the fixed default text when the reason is missing or empty). -/
theorem c4_rejection_reason_prefixed (st : ManagerState) (d : UploadData)
    (now : Nat) (today : String) (r : TransactionExtraction)
    (hfresh : statusOf st d.id = none)
    (hinvalid : r.isValidDocument = false) :
    analysisOf (run st [.upload d, .extractOutcome d.id now today (.ok r)])
        d.id
      = some (some ("Document rejected: " ++
          (match r.rejectionReason with
           | some s =>
             if s = "" then
               "This does not appear to be a valid receipt, bill, or financial document."
             else s
           | none =>
             "This does not appear to be a valid receipt, bill, or financial document."))) := by
  have h1 := statusOf_upload_fresh st d hfresh
  have hrun : run st [.upload d, .extractOutcome d.id now today (.ok r)]
      = step (step st (.upload d))
          (.extractOutcome d.id now today (.ok r)) := rfl
  rw [hrun]
  unfold analysisOf
  have hfind :
      (step (step st (.upload d))
          (.extractOutcome d.id now today (.ok r))).uploadedFiles.find?
        (fun f => f.id == d.id)
      = some (docAfterExtraction now today (newFile d) (.ok r)) := by
    show (applyExtraction (step st (.upload d)).uploadedFiles d.id now today
        (.ok r)).find? (fun f => f.id == d.id) = _
    rw [find?_applyExtraction_self, h1]
    rfl
  rw [hfind]
  simp [docAfterExtraction, hinvalid, rejectionText]

/-- C4 amended witness: concrete rejection with reason
"not a financial document". -/
theorem c4_amended_witness :
    analysisOf (run emptyState
        [.upload sampleUpload,
         .extractOutcome sampleUpload.id 7 "2024-01-02"
           (.ok sampleInvalidResult)]) sampleUpload.id
      = some (some ("Document rejected: " ++
          (match sampleInvalidResult.rejectionReason with
           | some s =>
             if s = "" then
               "This does not appear to be a valid receipt, bill, or financial document."
             else s
           | none =>
             "This does not appear to be a valid receipt, bill, or financial document."))) :=
  c4_rejection_reason_prefixed emptyState sampleUpload 7 "2024-01-02"
    sampleInvalidResult rfl rfl

/-- Sixty sample ledger transactions. -/
def sampleTxs60 : List Transaction :=
  (List.range 60).map fun i =>
    ⟨toString i, "2024-01-03", 100 + i, "food", "item", .expense⟩

/-- Twenty-five sample ledger transactions. -/
def sampleTxs25 : List Transaction :=
  (List.range 25).map fun i =>
    ⟨toString i, "2024-01-04", 200 + i, "shopping", "thing", .expense⟩

/-- C5: when a ledger window of more than 50 transactions is supplied to
a chat call, the serialized transaction summary sent as system context
contains exactly the most recent 50 transactions by position (the suffix
of the supplied list), each rendered with date, signed amount,
description and category. -/
theorem c5_chat_context_window (message : String)
    (imageData context : Option String) (txs : List Transaction)
    (h : 50 < txs.length) :
    ∃ p, txs = p ++ jsSliceLast 50 txs
    ∧ (jsSliceLast 50 txs).length = 50
    ∧ transactionSummary txs
        = String.intercalate "\n" ((jsSliceLast 50 txs).map renderTxLine)
    ∧ (⟨.system, .text (txHistoryContext txs)⟩ : ChatMsg)
        ∈ buildChatMessages message imageData context txs
    ∧ ∀ t ∈ jsSliceLast 50 txs,
        renderTxLine t = t.date ++ ": "
          ++ (match t.type with | .income => "+" | .expense => "-")
          ++ "$" ++ jsNumRepr t.amount ++ " - " ++ t.description
          ++ " (" ++ t.category ++ ")" := by
  refine ⟨txs.take (txs.length - 50), ?_, ?_, rfl, ?_, fun t _ => rfl⟩
  · simpa [jsSliceLast] using
      (List.take_append_drop (txs.length - 50) txs).symm
  · rw [jsSliceLast, List.length_drop]; omega
  · have hne : txs.isEmpty = false := by
      rw [List.isEmpty_eq_false]
      intro hn; rw [hn] at h; simp at h
    simp [buildChatMessages, hne]

/-- C5 witness: sixty transactions, the summary keeps the last fifty. -/
theorem c5_witness :
    ∃ p, sampleTxs60 = p ++ jsSliceLast 50 sampleTxs60
    ∧ (jsSliceLast 50 sampleTxs60).length = 50
    ∧ transactionSummary sampleTxs60
        = String.intercalate "\n"
            ((jsSliceLast 50 sampleTxs60).map renderTxLine)
    ∧ (⟨.system, .text (txHistoryContext sampleTxs60)⟩ : ChatMsg)
        ∈ buildChatMessages "How is my spending?" none none sampleTxs60
    ∧ ∀ t ∈ jsSliceLast 50 sampleTxs60,
        renderTxLine t = t.date ++ ": "
          ++ (match t.type with | .income => "+" | .expense => "-")
          ++ "$" ++ jsNumRepr t.amount ++ " - " ++ t.description
          ++ " (" ++ t.category ++ ")" :=
  c5_chat_context_window "How is my spending?" none none sampleTxs60
    (by simp [sampleTxs60])

/-- C6: when a ledger window of more than 20 transactions is supplied to
the insight synthesizer, the user turn of the request contains exactly
the most recent 20 transactions (the suffix of the supplied list),
serialized as a JSON array. -/
theorem c6_insight_window (txs : List Transaction)
    (h : 20 < txs.length) :
    ∃ p, txs = p ++ jsSliceLast 20 txs
    ∧ (jsSliceLast 20 txs).length = 20
    ∧ insightUserContent txs
        = "Analyze these transactions and provide insights: " ++
          ("[" ++ String.intercalate ","
              ((jsSliceLast 20 txs).map jsonOfTx) ++ "]")
    ∧ (⟨.user, .text (insightUserContent txs)⟩ : ChatMsg)
        ∈ buildInsightMessages txs := by
  refine ⟨txs.take (txs.length - 20), ?_, ?_, rfl, ?_⟩
  · simpa [jsSliceLast] using
      (List.take_append_drop (txs.length - 20) txs).symm
  · rw [jsSliceLast, List.length_drop]; omega
  · simp [buildInsightMessages]

/-- C6 witness: twenty-five transactions, the request keeps the last
twenty. -/
theorem c6_witness :
    ∃ p, sampleTxs25 = p ++ jsSliceLast 20 sampleTxs25
    ∧ (jsSliceLast 20 sampleTxs25).length = 20
    ∧ insightUserContent sampleTxs25
        = "Analyze these transactions and provide insights: " ++
          ("[" ++ String.intercalate ","
              ((jsSliceLast 20 sampleTxs25).map jsonOfTx) ++ "]")
    ∧ (⟨.user, .text (insightUserContent sampleTxs25)⟩ : ChatMsg)
        ∈ buildInsightMessages sampleTxs25 :=
  c6_insight_window sampleTxs25 (by simp [sampleTxs25])

/-- C7 counterexample: a response that decodes to a JSON array of
numbers is not "a JSON array of strings", yet `generateFinancialInsights`
returns it as-is (`Array.isArray(insights) ? insights : []` checks no
element types), so the result is not the empty list the claim
promises. -/
theorem c7_counterexample :
    (generateFinancialInsights (some "key") [sampleTx]
        (.okContent (some (.array [.jnum 1, .jnum 2])))).1
      = [.jnum 1, .jnum 2]
    ∧ (generateFinancialInsights (some "key") [sampleTx]
        (.okContent (some (.array [.jnum 1, .jnum 2])))).1 ≠ []
    ∧ ∀ s : String, JsonValue.jnum 1 ≠ JsonValue.jstr s := by
  refine ⟨rfl, by decide, fun s hc => JsonValue.noConfusion hc⟩

/-- C7 amended: `fetchInsights` returns `[]` and never raises when no
credential is configured or the transaction list is empty (no network
call in either case), when the HTTP call fails, when the response has no
content, when the content is not valid JSON, and when the decoded value
is not an array; a decoded array is returned as-is with no check that its
elements are strings. -/
theorem c7_insights_degrade_to_empty :
    (∀ txs resp, generateFinancialInsights none txs resp = ([], false))
    ∧ (∀ k resp, generateFinancialInsights (some k) [] resp = ([], false))
    ∧ (∀ k txs n, txs ≠ [] →
        generateFinancialInsights (some k) txs (.httpError n) = ([], true))
    ∧ (∀ k txs, txs ≠ [] →
        generateFinancialInsights (some k) txs .okNoContent = ([], true))
    ∧ (∀ k txs, txs ≠ [] →
        generateFinancialInsights (some k) txs (.okContent none)
          = ([], true))
    ∧ (∀ k txs, txs ≠ [] →
        generateFinancialInsights (some k) txs (.okContent (some .nonArray))
          = ([], true))
    ∧ (∀ k txs l, txs ≠ [] →
        generateFinancialInsights (some k) txs
            (.okContent (some (.array l)))
          = (l, true)) := by
  refine ⟨fun txs resp => rfl, fun k resp => rfl,
    fun k txs n h => ?_, fun k txs h => ?_, fun k txs h => ?_,
    fun k txs h => ?_, fun k txs l h => ?_⟩ <;>
    simp [generateFinancialInsights, List.isEmpty_eq_false.mpr h]

/-- C7 amended witness: an HTTP failure on a non-empty ledger yields the
empty insight list. -/
theorem c7_amended_witness :
    generateFinancialInsights (some "key") [sampleTx] (.httpError 500)
      = ([], true) :=
  c7_insights_degrade_to_empty.2.2.1 "key" [sampleTx] 500 (by decide)

/-- The document id an upload operation introduces. -/
def uploadTarget : Op → Option String
  | .upload d => some d.id
  | _ => none

/-- A document id that is absent stays absent under any operation that is
not an upload of that id (document ids are assigned at creation and never
reused). In particular a late extraction settlement does not re-create a
deleted document. -/
theorem statusOf_step_none (st : ManagerState) (op : Op) (id : String)
    (h : statusOf st id = none) (hop : uploadTarget op ≠ some id) :
    statusOf (step st op) id = none := by
  have hfind : st.uploadedFiles.find? (fun f => f.id == id) = none := by
    unfold statusOf at h
    cases hf : st.uploadedFiles.find? (fun f => f.id == id) with
    | none => rfl
    | some f => rw [hf] at h; simp at h
  cases op with
  | upload d =>
    have hne : d.id ≠ id := fun hc => hop (by simp [uploadTarget, hc])
    unfold statusOf step
    rw [List.find?_append, hfind]
    simp [newFile, hne]
  | extractOutcome fid now today res =>
    unfold statusOf step applyExtraction
    rw [find?_map_id_preserving _
      (fun f => by
        by_cases hf : (f.id == fid) = true <;>
          simp [hf, docAfterExtraction_id]) id, hfind]
    rfl
  | mergeFile fid => exact h
  | deleteFile fid =>
    have hall := List.find?_eq_none.mp hfind
    unfold statusOf step
    have hnone :
        (st.uploadedFiles.filter (fun f => !(f.id == fid))).find?
          (fun f => f.id == id) = none :=
      List.find?_eq_none.mpr
        (fun x hx => hall x (List.mem_of_mem_filter hx))
    rw [hnone]
    rfl

/-- An absent document id stays absent over a whole run without uploads
of that id. -/
theorem statusOf_run_none (st : ManagerState) (ops : List Op) (id : String)
    (h : statusOf st id = none)
    (hops : ∀ op ∈ ops, uploadTarget op ≠ some id) :
    statusOf (run st ops) id = none := by
  induction ops generalizing st with
  | nil => exact h
  | cons op ops ih =>
    exact ih (step st op)
      (statusOf_step_none st op id h (hops op (by simp)))
      (fun o ho => hops o (by simp [ho]))

/-- The status of a present document is preserved (or the document is
deleted) by any single operation that is not the settlement of that
document's own extraction call. -/
theorem statusOf_step_preserve (st : ManagerState) (op : Op) (id : String)
    (s : FileStatus) (h : statusOf st id = some s)
    (hop : extractTarget op ≠ some id) :
    statusOf (step st op) id = some s
    ∨ statusOf (step st op) id = none := by
  cases hf : st.uploadedFiles.find? (fun x => x.id == id) with
  | none =>
    unfold statusOf at h
    rw [hf] at h
    exact absurd h (by simp)
  | some f =>
    have hstatus : f.status = s := by
      unfold statusOf at h
      rw [hf] at h
      simpa using h
    cases op with
    | upload d =>
      left
      unfold statusOf step
      rw [List.find?_append, hf]
      simp [Option.or, hstatus]
    | extractOutcome fid now today res =>
      left
      have hne : id ≠ fid := fun hc => hop (by simp [extractTarget, hc])
      unfold statusOf step
      rw [find?_applyExtraction_ne _ _ _ _ _ _ hne, hf]
      simp [hstatus]
    | mergeFile fid =>
      left
      exact h
    | deleteFile fid =>
      by_cases hid : id = fid
      · right
        unfold statusOf step
        have hnone :
            (st.uploadedFiles.filter (fun f => !(f.id == fid))).find?
              (fun f => f.id == id) = none := by
          refine List.find?_eq_none.mpr (fun x hx => ?_)
          have hkeep := (List.mem_filter.mp hx).2
          intro hp
          rw [hid] at hp
          rw [hp] at hkeep
          simp at hkeep
        rw [hnone]
        rfl
      · left
        unfold statusOf step
        rw [find?_filter_ne _ _ _ hid, hf]
        simp [hstatus]

/-- C9: the per-document status lifecycle. (1) A freshly uploaded
document starts in `processing`. (2) Settling a present document's
extraction call moves it to `completed` or `error` (the spec's
`rejected`) and never back to `processing`. (3) No operation other than
that document's own extraction settlement changes its status (it can
only disappear by deletion). (4) Hence over any operation sequence that
contains no further extraction settlement for the document and no reuse
of its id — which is what the source guarantees: `onDrop` invokes
`processFile` exactly once per upload, and ids are never reused — a
document that has left `processing` keeps its terminal status until
deleted; in particular it never returns to `processing` and never flips
between `completed` and `error`. -/
theorem c9_status_state_machine :
    (∀ st d, statusOf st d.id = none →
        statusOf (step st (.upload d)) d.id = some .processing)
    ∧ (∀ st id now today res f,
        st.uploadedFiles.find? (fun x => x.id == id) = some f →
        (statusOf (step st (.extractOutcome id now today res)) id
            = some .completed
         ∨ statusOf (step st (.extractOutcome id now today res)) id
            = some .error))
    ∧ (∀ st op id s, statusOf st id = some s →
        extractTarget op ≠ some id →
        (statusOf (step st op) id = some s
         ∨ statusOf (step st op) id = none))
    ∧ (∀ st ops id s, statusOf st id = some s → s ≠ .processing →
        (∀ op ∈ ops,
          extractTarget op ≠ some id ∧ uploadTarget op ≠ some id) →
        (statusOf (run st ops) id = some s
         ∨ statusOf (run st ops) id = none)) := by
  refine ⟨?_, ?_, statusOf_step_preserve, ?_⟩
  · intro st d h
    unfold statusOf
    rw [statusOf_upload_fresh st d h]
    rfl
  · intro st id now today res f hfind
    unfold statusOf step
    rw [find?_applyExtraction_self, hfind]
    cases res with
    | ok r =>
      by_cases hv : r.isValidDocument
      · left; simp [docAfterExtraction, hv]
      · right; simp [docAfterExtraction, hv]
    | error e =>
      left; simp [docAfterExtraction, applyFallback]
  · intro st ops id s h hs hops
    induction ops generalizing st with
    | nil => exact Or.inl h
    | cons op ops ih =>
      rcases statusOf_step_preserve st op id s h (hops op (by simp)).1 with
        hsome | hnone
      · exact ih (step st op) hsome (fun o ho => hops o (by simp [ho]))
      · exact Or.inr (statusOf_run_none (step st op) ops id hnone
          (fun o ho => (hops o (by simp [ho])).2))

/-- A sample document that has completed extraction. -/
def sampleCompletedFile : UploadedFile :=
  { id := "done1", fileName := "a.png", preview := "data:img",
    ftype := .image, uploadedAt := "2024-01-01T00:00:00.000Z",
    status := .completed, extractedTransactions := [sampleTx],
    aiAnalysis := some "Receipt with one item." }

/-- C9 witness: a completed document keeps its status across a merge and
an unrelated deletion. -/
theorem c9_witness :
    statusOf (run ⟨[sampleCompletedFile], none, []⟩
        [.mergeFile "done1", .deleteFile "other"]) "done1"
      = some .completed
    ∨ statusOf (run ⟨[sampleCompletedFile], none, []⟩
        [.mergeFile "done1", .deleteFile "other"]) "done1"
      = none :=
  c9_status_state_machine.2.2.2 ⟨[sampleCompletedFile], none, []⟩
    [.mergeFile "done1", .deleteFile "other"] "done1" .completed
    (by decide) (by decide)
    (by
      intro op hop
      simp only [List.mem_cons, List.not_mem_nil, or_false] at hop
      rcases hop with rfl | rfl <;>
        exact ⟨fun hc => Option.noConfusion hc,
          fun hc => Option.noConfusion hc⟩)

/-- C8: merging a completed document into the ledger is not idempotent.
Merging twice appends the document's `extractedTransactions` twice
(`handleAddTransactions` is a plain append), each of its transactions
then occurs at least twice more than before, and the document record —
its `extractedTransactions` included — is unchanged by merging (copied,
not moved). -/
theorem c8_merge_twice_duplicates (st : ManagerState) (f : UploadedFile)
    (hstatus : f.status = .completed)
    (hfind : st.uploadedFiles.find? (fun x => x.id == f.id) = some f) :
    (step (step st (.mergeFile f.id)) (.mergeFile f.id)).ledger
      = st.ledger ++ f.extractedTransactions ++ f.extractedTransactions
    ∧ (step (step st (.mergeFile f.id)) (.mergeFile f.id)).uploadedFiles
      = st.uploadedFiles
    ∧ txsOf (step (step st (.mergeFile f.id)) (.mergeFile f.id)) f.id
      = some f.extractedTransactions
    ∧ ∀ t ∈ f.extractedTransactions,
        st.ledger.count t + 2
          ≤ (step (step st (.mergeFile f.id))
              (.mergeFile f.id)).ledger.count t := by
  have hledger :
      (step (step st (.mergeFile f.id)) (.mergeFile f.id)).ledger
        = st.ledger ++ f.extractedTransactions
            ++ f.extractedTransactions := by
    show (st.ledger ++
        (match st.uploadedFiles.find? (fun x => x.id == f.id) with
         | some g => g.extractedTransactions
         | none => [])) ++
        (match st.uploadedFiles.find? (fun x => x.id == f.id) with
         | some g => g.extractedTransactions
         | none => []) = _
    rw [hfind]
  refine ⟨hledger, rfl, ?_, ?_⟩
  · unfold txsOf
    show (st.uploadedFiles.find? (fun x => x.id == f.id)).map _ = _
    rw [hfind]
    rfl
  · intro t ht
    have hpos : 0 < f.extractedTransactions.count t :=
      List.count_pos_iff.mpr ht
    rw [hledger, List.count_append, List.count_append]
    omega

/-- A state holding the sample completed document and an empty ledger. -/
def c8State : ManagerState := ⟨[sampleCompletedFile], none, []⟩

/-- C8 witness: double merge of the sample completed document. -/
theorem c8_witness :
    (step (step c8State (.mergeFile "done1")) (.mergeFile "done1")).ledger
      = c8State.ledger ++ sampleCompletedFile.extractedTransactions
          ++ sampleCompletedFile.extractedTransactions
    ∧ (step (step c8State (.mergeFile "done1"))
        (.mergeFile "done1")).uploadedFiles = c8State.uploadedFiles
    ∧ txsOf (step (step c8State (.mergeFile "done1"))
        (.mergeFile "done1")) "done1"
      = some sampleCompletedFile.extractedTransactions
    ∧ ∀ t ∈ sampleCompletedFile.extractedTransactions,
        c8State.ledger.count t + 2
          ≤ (step (step c8State (.mergeFile "done1"))
              (.mergeFile "done1")).ledger.count t :=
  c8_merge_twice_duplicates c8State sampleCompletedFile rfl (by decide)

/-- C10: frame effects of deletion races. (1) Settling an extraction for
an id that is no longer in the list is a no-op on the whole state: the
per-id update writes nothing and the deleted document is not re-created.
(2) Any other document's record is untouched by a document's extraction
settlement. (3) Deleting the document the active chat selection points
at clears the selection. -/
theorem c10_delete_race_frame :
    (∀ st fileId now today res,
        st.uploadedFiles.find? (fun f => f.id == fileId) = none →
        step st (.extractOutcome fileId now today res) = st)
    ∧ (∀ st fileId now today res f,
        f ∈ st.uploadedFiles → f.id ≠ fileId →
        f ∈ (step st (.extractOutcome fileId now today res)).uploadedFiles)
    ∧ (∀ st fileId, st.selectedFile = some fileId →
        (step st (.deleteFile fileId)).selectedFile = none) := by
  refine ⟨?_, ?_, ?_⟩
  · intro st fileId now today res hnone
    have hall := List.find?_eq_none.mp hnone
    have hfiles : applyExtraction st.uploadedFiles fileId now today res
        = st.uploadedFiles :=
      applyExtraction_absent _ _ _ _ _
        (fun f hf => by simpa using hall f hf)
    show ({ st with uploadedFiles :=
        applyExtraction st.uploadedFiles fileId now today res }
      : ManagerState) = st
    rw [hfiles]
  · intro st fileId now today res f hmem hne
    refine List.mem_map.mpr ⟨f, hmem, ?_⟩
    show (if f.id == fileId then docAfterExtraction now today f res else f)
      = f
    rw [if_neg (by simpa using hne)]
  · intro st fileId h
    show (if st.selectedFile = some fileId then none else st.selectedFile)
      = none
    rw [if_pos h]

/-- C10 witness: a late extraction settlement for a deleted id leaves a
concrete state untouched. -/
theorem c10_witness :
    step ⟨[newFile sampleUpload], some "file1", []⟩
        (.extractOutcome "ghost" 7 "2024-01-02" (.error .transportError))
      = ⟨[newFile sampleUpload], some "file1", []⟩ :=
  c10_delete_race_frame.1 ⟨[newFile sampleUpload], some "file1", []⟩
    "ghost" 7 "2024-01-02" (.error .transportError) (by decide)

end FinanceTracker
